import Mathlib

/-!
# Verification of the shifted-beta-geometric (sBG) retention model

Shallow embedding of `shifted_beta_geometric/sbg.py` (Fader–Hardie sBG model).
Python floats are modelled as real numbers.  Functions that can raise a Python
exception (`IndexError` from list indexing, `ValueError` from `math.log` on a
non-positive argument, `ZeroDivisionError` from division by zero) are embedded
as `Option`-valued functions, with `none` standing for "raises"; total Python
code is embedded by total functions.  The external `scipy.special.hyp2f1`
evaluator is passed to `derl` as an explicit function argument, mirroring the
source's treatment of it as an external collaborator.
-/

namespace SBG

noncomputable section

/-- Loop body of `generate_probabilities`: for each `t` in `range(1, x)` the
Python code appends `(beta + t - 1) / (alpha + beta + t) * p[t-1]`; since the
appended element is always computed from the previous one, the accumulator
carries the previous element. -/
def gpLoop (α β : ℝ) : List ℕ → ℝ → List ℝ
  | [], _ => []
  | t :: ts, prev =>
    ((β + (t : ℝ) - 1) / (α + β + (t : ℝ)) * prev) ::
      gpLoop α β ts ((β + (t : ℝ) - 1) / (α + β + (t : ℝ)) * prev)

/-- `generate_probabilities(alpha, beta, x)`: starts from `[alpha/(alpha+beta)]`
and iterates over `range(1, x)` (empty whenever `x ≤ 1`).  Total: every list
index used by the source loop is in range, and for `alpha, beta > 0` (the only
regime a caller exercises) no denominator is zero. -/
def generate_probabilities (α β : ℝ) (x : ℤ) : List ℝ :=
  (α / (α + β)) :: gpLoop α β (List.range' 1 (x - 1).toNat) (α / (α + β))

/-- `probability(alpha, beta, t)`: the legacy directly recursive probability
function `P`, for non-negative `t` (the only inputs on which the Python
recursion terminates). -/
def probability (α β : ℝ) : ℕ → ℝ
  | 0 => α / (α + β)
  | t + 1 => (β + ((t + 1 : ℕ) : ℝ) - 1) / (α + β + ((t + 1 : ℕ) : ℝ)) * probability α β t

/-- A left fold whose body may raise (return `none`), used to embed the
accumulating `for` loops of the source. -/
def optFoldl {ι : Type} (f : ι → ℝ → Option ℝ) : List ι → ℝ → Option ℝ
  | [], acc => some acc
  | x :: xs, acc => (f x acc).bind (optFoldl f xs)

/-- `survivor(probabilities, t)`: `s = 1 - probabilities[0]` followed by
`s -= probabilities[x]` for `x` in `range(1, t + 1)`.  `none` models the
`IndexError` raised when an index is out of range; for `t < 0` the Python
`range` is empty, which `Int.toNat` reproduces. -/
def survivor (probabilities : List ℝ) (t : ℤ) : Option ℝ :=
  (probabilities.get? 0).bind fun p0 =>
    optFoldl (fun x s => (probabilities.get? x).map fun px => s - px)
      (List.range' 1 t.toNat) (1 - p0)

/-- `survivor_rates(data)`: `s[0] = 1 - data[0]` and
`s[i] = data[i-1] - data[i]` for `i ≥ 1`. -/
def survivor_rates (data : List ℝ) : List ℝ :=
  match data with
  | [] => []
  | d0 :: rest => (1 - d0) :: List.zipWith (fun a b => a - b) (d0 :: rest) rest

/-- Python's `math.log`, which raises `ValueError` on a non-positive
argument. -/
def mathLog (x : ℝ) : Option ℝ :=
  if 0 < x then some (Real.log x) else none

/-- `log_likelihood(alpha, beta, data, survivors=None)`.  The guard
`alpha <= 0 or beta <= 0` returns the `-1000` sentinel before any data access;
otherwise the sum `Σ s * log(probabilities[t])` over `enumerate(survivors)` is
taken (with `survivors` defaulting to `survivor_rates(data)`), plus
`data[-1] * log(survivor(probabilities, len(data) - 1))`. -/
def log_likelihood (α β : ℝ) (data : List ℝ) (survivorsOpt : Option (List ℝ)) : Option ℝ :=
  if α ≤ 0 ∨ β ≤ 0 then some (-1000)
  else
    (survivor (generate_probabilities α β (data.length : ℤ)) ((data.length : ℤ) - 1)).bind
      fun fsl =>
    (optFoldl (fun ts acc =>
        ((generate_probabilities α β (data.length : ℤ)).get? ts.1).bind fun pt =>
        (mathLog pt).map fun lg => acc + ts.2 * lg)
      (survivorsOpt.getD (survivor_rates data)).enum 0).bind fun total =>
    data.getLast?.bind fun dlast =>
    (mathLog fsl).map fun lfsl => total + dlast * lfsl

/-- `log_likelihood_multi_cohort(alpha, beta, data)`.  Same `-1000` guard;
probabilities are sized to `len(data[0])` (the first cohort); each cohort `i`
contributes `Σ_{j < len(cohort)-1} (cohort[j]-cohort[j+1]) * log(p[j])` plus
`cohort[-1] * log(survivor(p, cohorts - i - 1))`. -/
def log_likelihood_multi_cohort (α β : ℝ) (data : List (List ℝ)) : Option ℝ :=
  if α ≤ 0 ∨ β ≤ 0 then some (-1000)
  else
    data.head?.bind fun c0 =>
    optFoldl (fun ic total =>
        (optFoldl (fun j acc =>
            (ic.2.get? j).bind fun cj =>
            (ic.2.get? (j + 1)).bind fun cj1 =>
            ((generate_probabilities α β (c0.length : ℤ)).get? j).bind fun pj =>
            (mathLog pj).map fun lg => acc + (cj - cj1) * lg)
          (List.range (ic.2.length - 1)) 0).bind fun inner =>
        (survivor (generate_probabilities α β (c0.length : ℤ))
            ((data.length : ℤ) - (ic.1 : ℤ) - 1)).bind fun sv =>
        (mathLog sv).bind fun lsv =>
        ic.2.getLast?.map fun clast =>
        total + inner + clast * lsv)
      data.enum 0

/-- `predicted_retention(alpha, beta, t) = (beta + t) / (alpha + beta + t)`;
`none` models the `ZeroDivisionError` when the denominator is zero (the
function performs no other validation). -/
def predicted_retention (α β t : ℝ) : Option ℝ :=
  if α + β + t = 0 then none else some ((β + t) / (α + β + t))

/-- Loop body of `predicted_survival`: appends
`predicted_retention(alpha, beta, t) * s[t-1]` for `t` in `range(1, x)`; the
accumulator carries the previously appended element. -/
def psLoop (α β : ℝ) : List ℕ → ℝ → Option (List ℝ)
  | [], _ => some []
  | t :: ts, prev =>
    (predicted_retention α β (t : ℝ)).bind fun r =>
    (psLoop α β ts (r * prev)).map fun rest => (r * prev) :: rest

/-- `predicted_survival(alpha, beta, x)`: starts from
`[predicted_retention(alpha, beta, 0)]` and iterates over `range(1, x)`. -/
def predicted_survival (α β : ℝ) (x : ℤ) : Option (List ℝ) :=
  (predicted_retention α β 0).bind fun s0 =>
  (psLoop α β (List.range' 1 (x - 1).toNat) s0).map fun rest => s0 :: rest

/-- `derl(alpha, beta, d, n)`: delegates to the external hypergeometric
evaluator (passed as the argument `hyp2f1`), returning
`predicted_retention(alpha, beta, n) * hyp2f1(1, beta+n+1, alpha+beta+n+1,
1/(1+d))`; `none` models the `ZeroDivisionError` at `d = -1` (no other
validation of `d` is performed). -/
def derl (hyp2f1 : ℝ → ℝ → ℝ → ℝ → ℝ) (α β d n : ℝ) : Option ℝ :=
  if 1 + d = 0 then none
  else
    (predicted_retention α β n).map fun r =>
      r * hyp2f1 1 (β + n + 1) (α + β + n + 1) (1 / (1 + d))

/-- Auxiliary (not from the source): the cumulative retention product
`∏_{s < n} (beta + s) / (alpha + beta + s)`, the closed form of the survivor
value after `n` periods. -/
def retentionProd (α β : ℝ) (n : ℕ) : ℝ :=
  ∏ s ∈ Finset.range n, (β + (s : ℝ)) / (α + β + (s : ℝ))

end

/-! ## Basic lemmas about the embedded functions -/

theorem optFoldl_eq_sum {ι : Type} (f : ι → ℝ → Option ℝ) (g : ι → ℝ) :
    ∀ (l : List ι), (∀ x ∈ l, ∀ a : ℝ, f x a = some (a + g x)) →
      ∀ acc : ℝ, optFoldl f l acc = some (acc + (l.map g).sum)
  | [], _, acc => by simp [optFoldl]
  | x :: xs, h, acc => by
    have hx := h x (List.mem_cons_self x xs) acc
    have hxs := optFoldl_eq_sum f g xs (fun y hy a => h y (List.mem_cons_of_mem x hy) a)
      (acc + g x)
    simp only [optFoldl, hx, Option.some_bind, hxs, List.map_cons, List.sum_cons]
    ring_nf

theorem gpLoop_eq_map (α β : ℝ) :
    ∀ (m k : ℕ), gpLoop α β (List.range' (k + 1) m) (probability α β k) =
      (List.range' (k + 1) m).map (probability α β)
  | 0, _ => rfl
  | m + 1, k => by
    rw [List.range'_succ]
    show ((β + ((k + 1 : ℕ) : ℝ) - 1) / (α + β + ((k + 1 : ℕ) : ℝ)) * probability α β k) ::
        gpLoop α β (List.range' (k + 1 + 1) m)
          ((β + ((k + 1 : ℕ) : ℝ) - 1) / (α + β + ((k + 1 : ℕ) : ℝ)) * probability α β k) = _
    rw [show (β + ((k + 1 : ℕ) : ℝ) - 1) / (α + β + ((k + 1 : ℕ) : ℝ)) * probability α β k =
          probability α β (k + 1) from rfl]
    rw [gpLoop_eq_map α β m (k + 1), List.map_cons]

theorem generate_probabilities_eq_map (α β : ℝ) (x : ℤ) :
    generate_probabilities α β x =
      (List.range ((x - 1).toNat + 1)).map (probability α β) := by
  rw [List.range_eq_range', List.range'_succ, List.map_cons]
  show (α / (α + β)) :: gpLoop α β (List.range' 1 (x - 1).toNat) (α / (α + β)) = _
  rw [show α / (α + β) = probability α β 0 from rfl,
    show (0 + 1 : ℕ) = 0 + 1 from rfl]
  have h := gpLoop_eq_map α β (x - 1).toNat 0
  rw [show (0 + 1 : ℕ) = 1 from rfl] at h
  rw [h]

theorem generate_probabilities_length (α β : ℝ) (x : ℤ) :
    (generate_probabilities α β x).length = (x - 1).toNat + 1 := by
  rw [generate_probabilities_eq_map, List.length_map, List.length_range]

theorem generate_probabilities_get? (α β : ℝ) (x : ℤ) (k : ℕ)
    (hk : k < (x - 1).toNat + 1) :
    (generate_probabilities α β x).get? k = some (probability α β k) := by
  rw [generate_probabilities_eq_map, List.get?_eq_getElem?, List.getElem?_map,
    List.getElem?_range hk, Option.map_some']

theorem retentionProd_succ (α β : ℝ) (n : ℕ) :
    retentionProd α β (n + 1) =
      retentionProd α β n * ((β + (n : ℝ)) / (α + β + (n : ℝ))) :=
  Finset.prod_range_succ _ n

theorem probability_eq_closed (α β : ℝ) :
    ∀ n : ℕ, probability α β n = α / (α + β + n) * retentionProd α β n
  | 0 => by
    simp [probability, retentionProd]
  | n + 1 => by
    show (β + ((n + 1 : ℕ) : ℝ) - 1) / (α + β + ((n + 1 : ℕ) : ℝ)) * probability α β n = _
    rw [probability_eq_closed α β n, retentionProd_succ]
    push_cast
    ring

theorem retentionProd_pos {α β : ℝ} (hα : 0 < α) (hβ : 0 < β) (n : ℕ) :
    0 < retentionProd α β n := by
  refine Finset.prod_pos fun s _ => div_pos ?_ ?_ <;> positivity

theorem probability_pos {α β : ℝ} (hα : 0 < α) (hβ : 0 < β) (n : ℕ) :
    0 < probability α β n := by
  rw [probability_eq_closed]
  have h1 : (0 : ℝ) < α + β + n := by positivity
  exact mul_pos (div_pos hα h1) (retentionProd_pos hα hβ n)

theorem sum_range_probability {α β : ℝ} (hα : 0 < α) (hβ : 0 < β) :
    ∀ n : ℕ, ((List.range n).map (probability α β)).sum = 1 - retentionProd α β n
  | 0 => by simp [retentionProd]
  | n + 1 => by
    rw [List.range_succ, List.map_append, List.sum_append,
      sum_range_probability hα hβ n]
    have hd : (0 : ℝ) < α + β + n := by positivity
    simp only [List.map_cons, List.map_nil, List.sum_cons, List.sum_nil]
    rw [probability_eq_closed, retentionProd_succ]
    field_simp
    ring

theorem sum_range_probability_lt_one {α β : ℝ} (hα : 0 < α) (hβ : 0 < β) (n : ℕ) :
    ((List.range n).map (probability α β)).sum < 1 := by
  rw [sum_range_probability hα hβ]
  have := retentionProd_pos hα hβ n
  linarith

theorem list_sum_map_neg {ι : Type} (l : List ι) (f : ι → ℝ) :
    (l.map fun x => -(f x)).sum = -((l.map f).sum) := by
  induction l with
  | nil => simp
  | cons x xs ih => simp only [List.map_cons, List.sum_cons, ih]; ring

theorem take_sum_eq_range (p : List ℝ) :
    ∀ n : ℕ, n ≤ p.length →
      (p.take n).sum = ((List.range n).map fun k => p.getD k 0).sum
  | 0, _ => by simp
  | n + 1, h => by
    have hn : n < p.length := h
    rw [List.take_succ, List.sum_append, take_sum_eq_range p n (le_of_lt hn),
      List.range_succ, List.map_append, List.sum_append]
    simp [List.getElem?_eq_getElem hn, List.getD_eq_getElem p 0 hn]

theorem survivor_eq_take (p : List ℝ) (t : ℤ) (hlt : t.toNat < p.length) :
    survivor p t = some (1 - (p.take (t.toNat + 1)).sum) := by
  have h0 : 0 < p.length := Nat.lt_of_le_of_lt (Nat.zero_le _) hlt
  have hbody : ∀ x ∈ List.range' 1 t.toNat, ∀ s : ℝ,
      ((p.get? x).map fun px => s - px) = some (s + -(p.getD x 0)) := by
    intro x hx s
    obtain ⟨i, hi, rfl⟩ := List.mem_range'.1 hx
    have hxlt : 1 + 1 * i < p.length := by omega
    rw [List.get?_eq_getElem?, List.getElem?_eq_getElem hxlt, Option.map_some',
      List.getD_eq_getElem p 0 hxlt, sub_eq_add_neg]
  rw [survivor, List.get?_eq_getElem?, List.getElem?_eq_getElem h0, Option.some_bind,
    optFoldl_eq_sum _ (fun x => -(p.getD x 0)) _ hbody,
    take_sum_eq_range p (t.toNat + 1) hlt, List.range_eq_range', List.range'_succ,
    List.map_cons, List.sum_cons, list_sum_map_neg]
  rw [List.getD_eq_getElem p 0 h0]
  norm_num
  ring

theorem generate_probabilities_take (α β : ℝ) (x : ℤ) (m : ℕ)
    (hm : m ≤ (x - 1).toNat + 1) :
    (generate_probabilities α β x).take m = (List.range m).map (probability α β) := by
  rw [generate_probabilities_eq_map, ← List.map_take, List.take_range,
    Nat.min_eq_left hm]

theorem generate_probabilities_getD (α β : ℝ) (x : ℤ) (k : ℕ)
    (hk : k < (x - 1).toNat + 1) :
    (generate_probabilities α β x).getD k 0 = probability α β k := by
  have hk' : k < (generate_probabilities α β x).length := by
    rw [generate_probabilities_length]; exact hk
  rw [List.getD_eq_getElem _ 0 hk']
  have h := generate_probabilities_get? α β x k hk
  rw [List.get?_eq_getElem?, List.getElem?_eq_getElem hk'] at h
  exact Option.some.inj h

/-! ## The claims -/

/-- **C1.** For every `alpha > 0`, `beta > 0` and horizon `n ≥ 1`,
`generate_probabilities(alpha, beta, n)` returns a sequence of length `n` whose
element at index 0 is `alpha/(alpha+beta)` and whose element at each index
`1 ≤ t < n` is `((beta+t-1)/(alpha+beta+t))` times the element at `t-1`. -/
theorem generate_probabilities_spec (α β : ℝ) (hα : 0 < α) (hβ : 0 < β)
    (n : ℤ) (hn : 1 ≤ n) (t : ℕ) (ht1 : 1 ≤ t) (htn : (t : ℤ) < n) :
    ((generate_probabilities α β n).length : ℤ) = n ∧
    (generate_probabilities α β n).getD 0 0 = α / (α + β) ∧
    (generate_probabilities α β n).getD t 0 =
      (β + (t : ℝ) - 1) / (α + β + (t : ℝ)) *
        ((generate_probabilities α β n).getD (t - 1) 0) := by
  refine ⟨?_, ?_, ?_⟩
  · rw [generate_probabilities_length]; omega
  · rw [generate_probabilities_getD α β n 0 (by omega)]; rfl
  · obtain ⟨s, rfl⟩ : ∃ s, t = s + 1 := ⟨t - 1, by omega⟩
    rw [generate_probabilities_getD α β n (s + 1) (by omega), Nat.add_sub_cancel,
      generate_probabilities_getD α β n s (by omega)]
    rfl

/-- Witness for C1 at `alpha = 1`, `beta = 2`, `n = 3`, `t = 1`. -/
theorem generate_probabilities_spec_witness :
    ((generate_probabilities 1 2 3).length : ℤ) = 3 ∧
    (generate_probabilities 1 2 3).getD 0 0 = 1 / (1 + 2) ∧
    (generate_probabilities 1 2 3).getD 1 0 =
      (2 + ((1 : ℕ) : ℝ) - 1) / (1 + 2 + ((1 : ℕ) : ℝ)) *
        ((generate_probabilities 1 2 3).getD (1 - 1) 0) :=
  generate_probabilities_spec 1 2 (by norm_num) (by norm_num) 3 (by norm_num) 1
    (by norm_num) (by norm_num)

/-- **C4.** For every `n ≥ 1` and `alpha, beta > 0`, the generated
churn-probability sequence sums to strictly less than 1, and that sum plus the
survivor value at `n - 1` is exactly 1 (stated as: the survivor call succeeds
and returns exactly `1 -` the sum). -/
theorem probabilities_sum_survivor_identity (α β : ℝ) (hα : 0 < α) (hβ : 0 < β)
    (n : ℤ) (hn : 1 ≤ n) :
    (generate_probabilities α β n).sum < 1 ∧
    survivor (generate_probabilities α β n) (n - 1) =
      some (1 - (generate_probabilities α β n).sum) := by
  have hlen := generate_probabilities_length α β n
  have hidx : (n - 1).toNat < (generate_probabilities α β n).length := by
    rw [hlen]; omega
  refine ⟨?_, ?_⟩
  · rw [generate_probabilities_eq_map]
    exact sum_range_probability_lt_one hα hβ _
  · rw [survivor_eq_take _ _ hidx]
    have htake : (n - 1).toNat + 1 = (generate_probabilities α β n).length := by
      rw [hlen]
    rw [htake, List.take_length]

/-- Witness for C4 at `alpha = beta = 1`, `n = 2`. -/
theorem probabilities_sum_survivor_identity_witness :
    (generate_probabilities 1 1 2).sum < 1 ∧
    survivor (generate_probabilities 1 1 2) (2 - 1) =
      some (1 - (generate_probabilities 1 1 2).sum) :=
  probabilities_sum_survivor_identity 1 1 (by norm_num) (by norm_num) 2 (by norm_num)

/-- **C9.** The legacy recursive `probability` function agrees with the
iteratively generated sequence: for `alpha, beta > 0`, `n ≥ 1`, and
`0 ≤ t < n`, element `t` of `generate_probabilities(alpha, beta, n)` is
`probability(alpha, beta, t)`. -/
theorem probability_refines_generate (α β : ℝ) (hα : 0 < α) (hβ : 0 < β)
    (n : ℤ) (hn : 1 ≤ n) (t : ℕ) (ht : (t : ℤ) < n) :
    (generate_probabilities α β n).get? t = some (probability α β t) :=
  generate_probabilities_get? α β n t (by omega)

/-- Witness for C9 at `alpha = 2`, `beta = 3`, `n = 4`, `t = 2`. -/
theorem probability_refines_generate_witness :
    (generate_probabilities 2 3 4).get? 2 = some (probability 2 3 2) :=
  probability_refines_generate 2 3 (by norm_num) (by norm_num) 4 (by norm_num) 2
    (by norm_num)

/-- **C8, counterexample.** The claim asserts `survivor(p, -1) = 1` exactly;
but on `p = generate_probabilities(1, 1, 1) = [1/2]` the code returns
`1 - p[0] = 1/2` (the `range(1, 0)` loop is empty and the initial
`1 - probabilities[0]` assignment has already been made), not `1`. -/
theorem survivor_neg_one_counterexample :
    survivor (generate_probabilities 1 1 1) (-1) ≠ some 1 := by
  have h : survivor (generate_probabilities 1 1 1) (-1) = some (1 - 1 / (1 + 1)) := by
    have hlt : ((-1 : ℤ)).toNat < (generate_probabilities 1 1 1).length := by
      rw [generate_probabilities_length]; decide
    rw [survivor_eq_take _ _ hlt]
    norm_num [generate_probabilities, gpLoop]
  rw [h]
  intro hc
  have := Option.some.inj hc
  norm_num at this

/-- **C8, amended.** For `alpha, beta > 0` the survivor function on a generated
probability sequence is non-increasing over the valid indices
(`S(t+1) ≤ S(t)` whenever `t + 1` is in range), but at `t = -1` the code
returns `1 - p[0]` — the same value as at `t = 0` — rather than exactly 1. -/
theorem survivor_monotone_spec (α β : ℝ) (hα : 0 < α) (hβ : 0 < β) (x : ℤ)
    (t : ℕ) (ht : t + 1 < (generate_probabilities α β x).length) :
    survivor (generate_probabilities α β x) ((t : ℤ) + 1) =
      some (1 - ((generate_probabilities α β x).take (t + 2)).sum) ∧
    survivor (generate_probabilities α β x) (t : ℤ) =
      some (1 - ((generate_probabilities α β x).take (t + 1)).sum) ∧
    1 - ((generate_probabilities α β x).take (t + 2)).sum ≤
      1 - ((generate_probabilities α β x).take (t + 1)).sum ∧
    survivor (generate_probabilities α β x) (-1) =
      survivor (generate_probabilities α β x) 0 := by
  have hlen := generate_probabilities_length α β x
  have ht1 : ((t : ℤ) + 1).toNat = t + 1 := by omega
  have ht0 : ((t : ℤ)).toNat = t := by omega
  have htlt : ((t : ℤ)).toNat < (generate_probabilities α β x).length := by omega
  have ht1lt : ((t : ℤ) + 1).toNat < (generate_probabilities α β x).length := by omega
  have h0lt : ((0 : ℤ)).toNat < (generate_probabilities α β x).length := by
    rw [generate_probabilities_length]; omega
  have hneg1lt : ((-1 : ℤ)).toNat < (generate_probabilities α β x).length := by
    rw [generate_probabilities_length]; omega
  have hmem : t + 1 < (x - 1).toNat + 1 := by omega
  refine ⟨?_, ?_, ?_, ?_⟩
  · rw [survivor_eq_take _ _ ht1lt, ht1]
  · rw [survivor_eq_take _ _ htlt, ht0]
  · have hsucc : (generate_probabilities α β x).take (t + 2) =
        (generate_probabilities α β x).take (t + 1) ++
          ((generate_probabilities α β x)[t + 1]?).toList := List.take_succ
    have hget : (generate_probabilities α β x)[t + 1]? = some (probability α β (t + 1)) := by
      have h := generate_probabilities_get? α β x (t + 1) hmem
      rwa [List.get?_eq_getElem?] at h
    have hpos := probability_pos hα hβ (t + 1)
    rw [hsucc, hget, List.sum_append]
    simp only [Option.toList_some, List.sum_cons, List.sum_nil]
    linarith
  · rw [survivor_eq_take _ _ hneg1lt, survivor_eq_take _ _ h0lt,
      show ((-1 : ℤ)).toNat = 0 from rfl, show ((0 : ℤ)).toNat = 0 from rfl]

/-- Witness for the amended C8 at `alpha = beta = 1`, `x = 2`, `t = 0`. -/
theorem survivor_monotone_spec_witness :
    survivor (generate_probabilities 1 1 2) (((0 : ℕ) : ℤ) + 1) =
      some (1 - ((generate_probabilities 1 1 2).take (0 + 2)).sum) ∧
    survivor (generate_probabilities 1 1 2) ((0 : ℕ) : ℤ) =
      some (1 - ((generate_probabilities 1 1 2).take (0 + 1)).sum) ∧
    1 - ((generate_probabilities 1 1 2).take (0 + 2)).sum ≤
      1 - ((generate_probabilities 1 1 2).take (0 + 1)).sum ∧
    survivor (generate_probabilities 1 1 2) (-1) =
      survivor (generate_probabilities 1 1 2) 0 :=
  survivor_monotone_spec 1 1 (by norm_num) (by norm_num) 2 0
    (by rw [generate_probabilities_length]; decide)

theorem psLoop_some (α β : ℝ) (hα : 0 < α) (hβ : 0 < β) :
    ∀ (idx : List ℕ) (prev : ℝ),
      ∃ l, psLoop α β idx prev = some l ∧ l.length = idx.length
  | [], _ => ⟨[], rfl, rfl⟩
  | i :: is, prev => by
    have hd : (0 : ℝ) < α + β + (i : ℝ) := by positivity
    obtain ⟨l, hl, hlen⟩ :=
      psLoop_some α β hα hβ is ((β + (i : ℝ)) / (α + β + (i : ℝ)) * prev)
    refine ⟨(β + (i : ℝ)) / (α + β + (i : ℝ)) * prev :: l, ?_, by simp [hlen]⟩
    rw [psLoop, predicted_retention, if_neg (ne_of_gt hd), Option.some_bind, hl,
      Option.map_some']

/-- **C10.** For every `alpha, beta > 0` and every integer horizon `x`, both
`generate_probabilities` and `predicted_survival` return a list of length
`max(x, 1)`; in particular for `x ≤ 0` they return the one-element list holding
the period-0 value instead of an empty list or an error. -/
theorem horizon_length_spec (α β : ℝ) (hα : 0 < α) (hβ : 0 < β) (x : ℤ) :
    ((generate_probabilities α β x).length : ℤ) = max x 1 ∧
    (x ≤ 0 → generate_probabilities α β x = [α / (α + β)]) ∧
    (predicted_survival α β x).map (fun l => (l.length : ℤ)) = some (max x 1) ∧
    (x ≤ 0 → predicted_survival α β x = some [β / (α + β)]) := by
  have hd : (α + β + (0 : ℝ)) ≠ 0 := by positivity
  have hpr0 : predicted_retention α β 0 = some ((β + 0) / (α + β + 0)) := by
    rw [predicted_retention, if_neg hd]
  obtain ⟨l, hl, hlen⟩ := psLoop_some α β hα hβ (List.range' 1 (x - 1).toNat)
    ((β + 0) / (α + β + 0))
  have hps : predicted_survival α β x = some ((β + 0) / (α + β + 0) :: l) := by
    rw [predicted_survival, hpr0, Option.some_bind, hl, Option.map_some']
  have hlen' : l.length = (x - 1).toNat := by rw [hlen, List.length_range']
  refine ⟨?_, ?_, ?_, ?_⟩
  · rw [generate_probabilities_length]; omega
  · intro hx
    rw [generate_probabilities, show (x - 1).toNat = 0 by omega]
    rfl
  · rw [hps, Option.map_some']
    have hlc : (((β + 0) / (α + β + 0) :: l).length : ℤ) = max x 1 := by
      simp only [List.length_cons, hlen']; omega
    rw [hlc]
  · intro hx
    have hnil : l = [] := by
      rw [← List.length_eq_zero, hlen']; omega
    rw [hps, hnil]
    norm_num

/-- Witness for C10 at `alpha = 1`, `beta = 2`, `x = 0`. -/
theorem horizon_length_spec_witness :
    ((generate_probabilities 1 2 0).length : ℤ) = max 0 1 ∧
    ((0 : ℤ) ≤ 0 → generate_probabilities 1 2 0 = [1 / (1 + 2)]) ∧
    (predicted_survival 1 2 0).map (fun l => (l.length : ℤ)) = some (max 0 1) ∧
    ((0 : ℤ) ≤ 0 → predicted_survival 1 2 0 = some [2 / (1 + 2)]) :=
  horizon_length_spec 1 2 (by norm_num) (by norm_num) 0

/-- **C5.** Whenever `alpha ≤ 0` or `beta ≤ 0`, both likelihood entry points
return the fixed `-1000` sentinel, for every (even malformed) data argument
and optional precomputed survivors — the guard fires before any data access
and no error is raised. -/
theorem likelihood_domain_guard (α β : ℝ) (h : α ≤ 0 ∨ β ≤ 0) (data : List ℝ)
    (survivorsOpt : Option (List ℝ)) (mdata : List (List ℝ)) :
    log_likelihood α β data survivorsOpt = some (-1000) ∧
    log_likelihood_multi_cohort α β mdata = some (-1000) :=
  ⟨by rw [log_likelihood, if_pos h], by rw [log_likelihood_multi_cohort, if_pos h]⟩

/-- Witness for C5 at `alpha = -1`, `beta = 1`, with nonsense data. -/
theorem likelihood_domain_guard_witness :
    log_likelihood (-1) 1 [2] none = some (-1000) ∧
    log_likelihood_multi_cohort (-1) 1 [[3]] = some (-1000) :=
  likelihood_domain_guard (-1) 1 (Or.inl (by norm_num)) [2] none [[3]]

/-- **C6, counterexample.** The claim asserts `predicted_retention` and `derl`
raise a domain error for `alpha ≤ 0`; in fact neither validates its
parameters: at `alpha = -1, beta = 1/2` both return plain numeric values
(`some`, i.e. no exception). -/
theorem prediction_domain_counterexample :
    predicted_retention (-1) (1 / 2) 0 = some (-1) ∧
    derl (fun _ _ _ z => z) (-1) (1 / 2) 1 0 = some (-(1 / 2)) := by
  constructor
  · rw [predicted_retention, if_neg (by norm_num)]
    norm_num
  · rw [derl, if_neg (by norm_num), predicted_retention, if_neg (by norm_num)]
    norm_num

/-- **C6, amended.** `predicted_retention` and `derl` perform no domain
validation at all: even for `alpha ≤ 0` or `beta ≤ 0` they return the numeric
formula values (whenever no denominator is zero) instead of raising. -/
theorem prediction_no_domain_guard (α β t d n : ℝ) (hyp2f1 : ℝ → ℝ → ℝ → ℝ → ℝ)
    (hdom : α ≤ 0 ∨ β ≤ 0) (h1 : α + β + t ≠ 0) (h2 : α + β + n ≠ 0)
    (h3 : 1 + d ≠ 0) :
    predicted_retention α β t = some ((β + t) / (α + β + t)) ∧
    derl hyp2f1 α β d n =
      some ((β + n) / (α + β + n) *
        hyp2f1 1 (β + n + 1) (α + β + n + 1) (1 / (1 + d))) := by
  constructor
  · rw [predicted_retention, if_neg h1]
  · rw [derl, if_neg h3, predicted_retention, if_neg h2, Option.map_some']

/-- Witness for the amended C6 at `alpha = -1`, `beta = 1/2`. -/
theorem prediction_no_domain_guard_witness :
    predicted_retention (-1) (1 / 2) 0 = some ((1 / 2 + 0) / (-1 + 1 / 2 + 0)) ∧
    derl (fun _ _ _ z => z) (-1) (1 / 2) 1 0 =
      some ((1 / 2 + 0) / (-1 + 1 / 2 + 0) *
        (fun _ _ _ z => z : ℝ → ℝ → ℝ → ℝ → ℝ) 1 (1 / 2 + 0 + 1) (-1 + 1 / 2 + 0 + 1)
          (1 / (1 + 1))) :=
  prediction_no_domain_guard (-1) (1 / 2) 0 1 0 (fun _ _ _ z => z)
    (Or.inl (by norm_num)) (by norm_num) (by norm_num) (by norm_num)

/-- **C7, counterexample.** The claim asserts `derl` validates `d > 0` and
rejects non-positive discount rates before delegating; in fact `derl` performs
no such check: at `d = -1/2 ≤ 0` it happily returns a numeric value. -/
theorem derl_discount_counterexample :
    derl (fun _ _ _ z => z) 1 1 (-(1 / 2)) 0 = some 1 := by
  rw [derl, if_neg (by norm_num), predicted_retention, if_neg (by norm_num)]
  norm_num

/-- **C7, amended.** `derl` performs no validation of `d`: for every `d` with
`1 + d ≠ 0` (the only failure is the division `1/(1+d)` at `d = -1`) it
returns `predicted_retention(alpha, beta, n)` times the external evaluator
applied to `(1, beta+n+1, alpha+beta+n+1, 1/(1+d))`. -/
theorem derl_delegation_spec (α β d n : ℝ) (hyp2f1 : ℝ → ℝ → ℝ → ℝ → ℝ)
    (h3 : 1 + d ≠ 0) (h2 : α + β + n ≠ 0) :
    derl hyp2f1 α β d n =
      some ((β + n) / (α + β + n) *
        hyp2f1 1 (β + n + 1) (α + β + n + 1) (1 / (1 + d))) := by
  rw [derl, if_neg h3, predicted_retention, if_neg h2, Option.map_some']

/-- Witness for the amended C7 at a non-positive discount rate `d = -1/2`. -/
theorem derl_delegation_spec_witness :
    derl (fun _ _ _ z => z) 1 1 (-(1 / 2)) 0 =
      some ((1 + 0) / (1 + 1 + 0) *
        (fun _ _ _ z => z : ℝ → ℝ → ℝ → ℝ → ℝ) 1 (1 + 0 + 1) (1 + 1 + 0 + 1)
          (1 / (1 + -(1 / 2)))) :=
  derl_delegation_spec 1 1 (-(1 / 2)) 0 (fun _ _ _ z => z) (by norm_num) (by norm_num)

theorem survivor_rates_length (data : List ℝ) :
    (survivor_rates data).length = data.length := by
  cases data with
  | nil => rfl
  | cons d0 rest =>
    simp only [survivor_rates, List.length_cons, List.length_zipWith]
    omega

/-- Value of the single-cohort log-likelihood on the full success path: for
`alpha, beta > 0` and non-empty `data`, with `survivors` defaulted. -/
theorem log_likelihood_value (α β : ℝ) (hα : 0 < α) (hβ : 0 < β)
    (data : List ℝ) (hne : data ≠ []) :
    log_likelihood α β data none =
      some ((((survivor_rates data).enum).map fun ts =>
          ts.2 * Real.log ((generate_probabilities α β (data.length : ℤ)).getD ts.1 0)).sum
        + data.getD (data.length - 1) 0 *
            Real.log (1 - (generate_probabilities α β (data.length : ℤ)).sum)) := by
  have hnpos : 0 < data.length := List.length_pos.2 hne
  have hplen : (generate_probabilities α β (data.length : ℤ)).length = data.length := by
    rw [generate_probabilities_length]; omega
  have hsum_lt : (generate_probabilities α β (data.length : ℤ)).sum < 1 := by
    rw [generate_probabilities_eq_map]
    exact sum_range_probability_lt_one hα hβ _
  have hidx : ((data.length : ℤ) - 1).toNat <
      (generate_probabilities α β (data.length : ℤ)).length := by
    rw [hplen]; omega
  have hsurv : survivor (generate_probabilities α β (data.length : ℤ))
      ((data.length : ℤ) - 1) =
      some (1 - (generate_probabilities α β (data.length : ℤ)).sum) := by
    rw [survivor_eq_take _ _ hidx,
      show ((data.length : ℤ) - 1).toNat + 1 =
        (generate_probabilities α β (data.length : ℤ)).length by rw [hplen]; omega,
      List.take_length]
  have hfold : optFoldl (fun ts acc =>
        ((generate_probabilities α β (data.length : ℤ)).get? ts.1).bind fun pt =>
        (mathLog pt).map fun lg => acc + ts.2 * lg)
      ((survivor_rates data).enum) 0 =
      some (0 + (((survivor_rates data).enum).map fun ts =>
        ts.2 * Real.log ((generate_probabilities α β (data.length : ℤ)).getD ts.1 0)).sum) := by
    refine optFoldl_eq_sum _ _ _ ?_ 0
    intro ts hts a
    have hget := List.mem_enum_iff_getElem?.1 hts
    have htlt : ts.1 < (survivor_rates data).length :=
      (List.getElem?_eq_some.1 hget).1
    rw [survivor_rates_length] at htlt
    have htlt' : ts.1 < ((data.length : ℤ) - 1).toNat + 1 := by omega
    rw [generate_probabilities_get? α β _ ts.1 htlt',
      Option.some_bind, mathLog, if_pos (probability_pos hα hβ ts.1),
      Option.map_some', generate_probabilities_getD α β _ ts.1 htlt']
  have hlast : data.getLast? = some (data.getD (data.length - 1) 0) := by
    have hl : data.length - 1 < data.length := by omega
    rw [List.getLast?_eq_getElem?, List.getElem?_eq_getElem hl,
      List.getD_eq_getElem data 0 hl]
  rw [log_likelihood, if_neg (by push_neg; exact ⟨hα, hβ⟩), Option.getD_none,
    hsurv, Option.some_bind, hfold, Option.some_bind, hlast, Option.some_bind,
    mathLog, if_pos (by linarith), Option.map_some', zero_add]

/-- **C2, counterexample.** The claim attributes the tail term to the survivor
value at index `n - 2`; the code uses `survivor(probabilities, len(data) - 1)`,
i.e. index `n - 1`.  At `alpha = beta = 1`, `data = [1/2, 1/4]` the claim's
formula is `(1 - 1/2)·log P(0) + (1/2 - 1/4)·log P(1) + 1/4·log S(0)` with
`P = [1/2, 1/6]` and `S(0) = 1 - 1/2`; the code instead multiplies the tail by
`log S(1) = log(1/3)`, so the two values differ. -/
theorem log_likelihood_tail_index_counterexample :
    log_likelihood 1 1 [1 / 2, 1 / 4] none ≠
      some ((1 - 1 / 2) * Real.log (1 / 2) + (1 / 2 - 1 / 4) * Real.log (1 / 6)
        + 1 / 4 * Real.log (1 - 1 / 2)) := by
  have hp0 : probability (1 : ℝ) 1 0 = 1 / 2 := by rw [probability]; norm_num
  have hp1 : probability (1 : ℝ) 1 1 = 1 / 6 := by
    rw [show (1 : ℕ) = 0 + 1 from rfl, probability, probability]; norm_num
  have he0 : (generate_probabilities (1 : ℝ) 1 2)[0]? = some (probability 1 1 0) := by
    have h := generate_probabilities_get? (1 : ℝ) 1 2 0 (by decide)
    rwa [List.get?_eq_getElem?] at h
  have he1 : (generate_probabilities (1 : ℝ) 1 2)[1]? = some (probability 1 1 1) := by
    have h := generate_probabilities_get? (1 : ℝ) 1 2 1 (by decide)
    rwa [List.get?_eq_getElem?] at h
  have hsum : (generate_probabilities (1 : ℝ) 1 2).sum = 1 / 2 + 1 / 6 := by
    rw [generate_probabilities_eq_map, show ((2 : ℤ) - 1).toNat + 1 = 2 from rfl,
      show List.range 2 = [0, 1] from by decide]
    simp [hp0, hp1]
  have hv := log_likelihood_value 1 1 (by norm_num) (by norm_num) [1 / 2, 1 / 4] (by simp)
  rw [hv]
  simp only [survivor_rates, List.zipWith, List.enum, List.enumFrom, List.map,
    List.sum_cons, List.sum_nil, List.length_cons, List.length_nil]
  norm_num [he0, he1, hp0, hp1, hsum]
  intro h
  have hlt : Real.log (1 / 3) < Real.log (1 / 2) :=
    Real.log_lt_log (by norm_num) (by norm_num)
  linarith

/-- **C2, amended.** For `alpha, beta > 0` and a cohort series of length
`n ≥ 2` with values in `(0, 1]`, `log_likelihood` returns the sum over
`(t, rate_t)` of `rate_t · log P(T=t)` plus `obs[n-1] · log S(n-1)` — the tail
term uses the survivor value at index `n - 1` (equivalently `1 -` the sum of
all `n` generated probabilities), not `n - 2` as claimed. -/
theorem log_likelihood_spec (α β : ℝ) (hα : 0 < α) (hβ : 0 < β) (data : List ℝ)
    (hlen : 2 ≤ data.length) (hvals : ∀ v ∈ data, 0 < v ∧ v ≤ 1) :
    log_likelihood α β data none =
      some ((((survivor_rates data).enum).map fun ts =>
          ts.2 * Real.log ((generate_probabilities α β (data.length : ℤ)).getD ts.1 0)).sum
        + data.getD (data.length - 1) 0 *
            Real.log (1 - (generate_probabilities α β (data.length : ℤ)).sum)) :=
  log_likelihood_value α β hα hβ data (by rintro rfl; simp at hlen)

/-- Witness for the amended C2 at `alpha = beta = 1`, `data = [1/2, 1/4]`. -/
theorem log_likelihood_spec_witness :
    log_likelihood 1 1 [1 / 2, 1 / 4] none =
      some ((((survivor_rates ([1 / 2, 1 / 4] : List ℝ)).enum).map fun ts =>
          ts.2 * Real.log ((generate_probabilities 1 1
            ((([1 / 2, 1 / 4] : List ℝ)).length : ℤ)).getD ts.1 0)).sum
        + (([1 / 2, 1 / 4] : List ℝ)).getD ((([1 / 2, 1 / 4] : List ℝ)).length - 1) 0 *
            Real.log (1 - (generate_probabilities 1 1
              ((([1 / 2, 1 / 4] : List ℝ)).length : ℤ)).sum)) :=
  log_likelihood_spec 1 1 (by norm_num) (by norm_num) [1 / 2, 1 / 4] (by norm_num)
    (by norm_num)

/-- **C3, counterexample.** The claim sizes the probability sequence to the
longest cohort; the code sizes it to `len(data[0])` (the first cohort).  With
`data = [[1/2], [1/2, 1/4]]` (first cohort not the longest) the claim's formula
is a well-defined real number, but the code raises `IndexError` inside
`survivor` (it only generated one probability), modelled here as `none`. -/
theorem log_likelihood_multi_cohort_counterexample :
    log_likelihood_multi_cohort 1 1 [[1 / 2], [1 / 2, 1 / 4]] = none := by
  rw [log_likelihood_multi_cohort, if_neg (by norm_num)]
  simp only [List.head?, Option.some_bind, List.enum, List.enumFrom, List.length_cons,
    List.length_nil, List.range, optFoldl]
  norm_num [survivor, generate_probabilities, gpLoop, optFoldl, mathLog,
    show ((1 : ℤ) - 1).toNat = 0 from rfl, List.range']

/-- **C3, amended.** The probability sequence is sized to the length of the
*first* cohort (`len(data[0])`), not the longest.  The exact bounds under
which every index the code touches is in range are: each cohort is at most
one period longer than the first (the inner sum only reads `P(T=j)` for
`j ≤ L_i - 2`), and the number of cohorts is at most the first cohort's
length; under those bounds the function returns the claimed double sum, with
each cohort `i` of length `L_i` contributing
`Σ_{j ≤ L_i-2} (count[j]-count[j+1])·log P(T=j)` plus
`count[L_i-1]·log S(cohorts - i - 1)` (the survivor value written as
`1 -` the sum of the first `cohorts - i` probabilities). -/
theorem log_likelihood_multi_cohort_value (α β : ℝ) (hα : 0 < α) (hβ : 0 < β)
    (data : List (List ℝ)) (hne : data ≠ [])
    (hcne : ∀ c ∈ data, c ≠ [])
    (hclen : ∀ c ∈ data, c.length ≤ (data.getD 0 []).length + 1)
    (hco : data.length ≤ (data.getD 0 []).length) :
    log_likelihood_multi_cohort α β data =
      some ((data.enum.map fun ic =>
        ((List.range (ic.2.length - 1)).map fun j =>
            (ic.2.getD j 0 - ic.2.getD (j + 1) 0) *
              Real.log ((generate_probabilities α β
                ((data.getD 0 []).length : ℤ)).getD j 0)).sum
        + ic.2.getD (ic.2.length - 1) 0 *
            Real.log (1 - ((generate_probabilities α β
              ((data.getD 0 []).length : ℤ)).take (data.length - ic.1)).sum)).sum) := by
  have hhead : data.head? = some (data.getD 0 []) := by
    cases data with
    | nil => exact absurd rfl hne
    | cons c0 rest => rfl
  have hn0 : 0 < (data.getD 0 []).length := by
    refine List.length_pos.2 (hcne _ ?_)
    cases data with
    | nil => exact absurd rfl hne
    | cons c0 rest => exact List.mem_cons_self _ _
  have hplen : (generate_probabilities α β ((data.getD 0 []).length : ℤ)).length =
      (data.getD 0 []).length := by
    rw [generate_probabilities_length]; omega
  have htakelt : ∀ m : ℕ, m ≤ (data.getD 0 []).length →
      ((generate_probabilities α β ((data.getD 0 []).length : ℤ)).take m).sum < 1 := by
    intro m hm
    rw [generate_probabilities_take α β _ m (by omega)]
    exact sum_range_probability_lt_one hα hβ m
  have hbody : ∀ ic ∈ data.enum, ∀ total : ℝ,
      (optFoldl (fun j acc =>
          (ic.2.get? j).bind fun cj =>
          (ic.2.get? (j + 1)).bind fun cj1 =>
          ((generate_probabilities α β ((data.getD 0 []).length : ℤ)).get? j).bind fun pj =>
          (mathLog pj).map fun lg => acc + (cj - cj1) * lg)
        (List.range (ic.2.length - 1)) 0).bind (fun inner =>
      (survivor (generate_probabilities α β ((data.getD 0 []).length : ℤ))
          ((data.length : ℤ) - (ic.1 : ℤ) - 1)).bind fun sv =>
      (mathLog sv).bind fun lsv =>
      ic.2.getLast?.map fun clast =>
      total + inner + clast * lsv) =
      some (total +
        (((List.range (ic.2.length - 1)).map fun j =>
            (ic.2.getD j 0 - ic.2.getD (j + 1) 0) *
              Real.log ((generate_probabilities α β
                ((data.getD 0 []).length : ℤ)).getD j 0)).sum
        + ic.2.getD (ic.2.length - 1) 0 *
            Real.log (1 - ((generate_probabilities α β
              ((data.getD 0 []).length : ℤ)).take (data.length - ic.1)).sum))) := by
    intro ic hic total
    have hget := List.mem_enum_iff_getElem?.1 hic
    obtain ⟨hilt, hival⟩ := List.getElem?_eq_some.1 hget
    have hmem : ic.2 ∈ data := hival ▸ List.getElem_mem hilt
    have hcnei := hcne ic.2 hmem
    have hcleni := hclen ic.2 hmem
    have hclpos : 0 < ic.2.length := List.length_pos.2 hcnei
    -- inner sum
    have hinner : optFoldl (fun j acc =>
          (ic.2.get? j).bind fun cj =>
          (ic.2.get? (j + 1)).bind fun cj1 =>
          ((generate_probabilities α β ((data.getD 0 []).length : ℤ)).get? j).bind fun pj =>
          (mathLog pj).map fun lg => acc + (cj - cj1) * lg)
        (List.range (ic.2.length - 1)) 0 =
        some (0 + ((List.range (ic.2.length - 1)).map fun j =>
            (ic.2.getD j 0 - ic.2.getD (j + 1) 0) *
              Real.log ((generate_probabilities α β
                ((data.getD 0 []).length : ℤ)).getD j 0)).sum) := by
      refine optFoldl_eq_sum _ _ _ ?_ 0
      intro j hj a
      have hjlt : j < ic.2.length - 1 := List.mem_range.1 hj
      have hj1 : j < ic.2.length := by omega
      have hj2 : j + 1 < ic.2.length := by omega
      have hj3 : j < ((((data.getD 0 []).length : ℕ) : ℤ) - 1).toNat + 1 := by omega
      rw [List.get?_eq_getElem?, List.getElem?_eq_getElem hj1,
        Option.some_bind, List.get?_eq_getElem?, List.getElem?_eq_getElem hj2,
        Option.some_bind, generate_probabilities_get? α β _ j hj3, Option.some_bind,
        mathLog, if_pos (probability_pos hα hβ j), Option.map_some',
        generate_probabilities_getD α β _ j hj3,
        List.getD_eq_getElem ic.2 0 hj1, List.getD_eq_getElem ic.2 0 hj2]
    rw [hinner, Option.some_bind]
    -- survivor term
    have hsidx : ((data.length : ℤ) - (ic.1 : ℤ) - 1).toNat <
        (generate_probabilities α β ((data.getD 0 []).length : ℤ)).length := by
      rw [hplen]; omega
    have hsnat : ((data.length : ℤ) - (ic.1 : ℤ) - 1).toNat + 1 = data.length - ic.1 := by
      omega
    rw [survivor_eq_take _ _ hsidx, hsnat, Option.some_bind]
    have hpos : (0 : ℝ) < 1 - ((generate_probabilities α β
        ((data.getD 0 []).length : ℤ)).take (data.length - ic.1)).sum := by
      have := htakelt (data.length - ic.1) (by omega)
      linarith
    rw [mathLog, if_pos hpos, Option.some_bind]
    have hlast : ic.2.getLast? = some (ic.2.getD (ic.2.length - 1) 0) := by
      have hl : ic.2.length - 1 < ic.2.length := by omega
      rw [List.getLast?_eq_getElem?, List.getElem?_eq_getElem hl,
        List.getD_eq_getElem ic.2 0 hl]
    rw [hlast, Option.map_some']
    congr 1
    ring
  rw [log_likelihood_multi_cohort, if_neg (by push_neg; exact ⟨hα, hβ⟩), hhead,
    Option.some_bind, optFoldl_eq_sum _ _ _ hbody 0, zero_add]

/-- Witness for the amended C3 at `alpha = beta = 1`,
`data = [[2, 1], [3, 2, 1]]` — a dataset whose *second* cohort is one period
longer than the first, exercising the exact in-range bound
(`L_i ≤ len(data[0]) + 1`) on which the amendment differs from requiring every
cohort to be no longer than the first. -/
theorem log_likelihood_multi_cohort_spec_witness :
    log_likelihood_multi_cohort 1 1 [[2, 1], [3, 2, 1]] =
      some ((([[2, 1], [3, 2, 1]] : List (List ℝ)).enum.map fun ic =>
        ((List.range (ic.2.length - 1)).map fun j =>
            (ic.2.getD j 0 - ic.2.getD (j + 1) 0) *
              Real.log ((generate_probabilities 1 1
                ((([[2, 1], [3, 2, 1]] : List (List ℝ)).getD 0 []).length : ℤ)).getD j 0)).sum
        + ic.2.getD (ic.2.length - 1) 0 *
            Real.log (1 - ((generate_probabilities 1 1
              ((([[2, 1], [3, 2, 1]] : List (List ℝ)).getD 0 []).length : ℤ)).take
                (([[2, 1], [3, 2, 1]] : List (List ℝ)).length - ic.1)).sum)).sum) :=
  log_likelihood_multi_cohort_value 1 1 (by norm_num) (by norm_num)
    [[2, 1], [3, 2, 1]] (by simp) (by simp) (by simp) (by simp)

end SBG
